import Mathlib

/-!
Shallow embedding of the monitoring core of the Uptimerobot-telegram-bot
repository (src/data_manager.py, src/url_monitor.py, src/notion_data_manager.py)
and proofs of the specification claims about it.

Modelling conventions:
* timestamps and response times are exact rationals (Python `datetime`
  arithmetic is exact integer microseconds; `total_seconds()` is modelled
  exactly);
* Python dictionaries with possibly-absent keys are modelled with `Option`
  (`none` = key absent); a JSON `null` value stored under a present key is an
  inner `Option` (`some none` = key present with value null);
* Python `round(x, n)` is modelled as round-half-to-even on rationals.
-/

/-- One entry of `ping_history[url]` as written by
`DataManager.update_url_status` (src/data_manager.py lines 174-179). -/
structure PingRecord where
  timestamp : ℚ
  status_code : ℤ
  response_time : Option ℚ
  success : Bool
deriving Repr, DecidableEq

/-- One entry of `downtime_incidents[url]` as written by
`DataManager._update_downtime_incidents` (src/data_manager.py lines 192-214). -/
structure Incident where
  start_time : ℚ
  end_time : Option ℚ
  duration : Option ℚ
deriving Repr, DecidableEq

/-- `DataManager._update_downtime_incidents` (src/data_manager.py lines
192-214): on a failed ping, append a fresh open incident unless the list is
non-empty with an open (`end_time is None`) last element; on a successful
ping, close the last incident if it is open, setting `end_time` to the probe
timestamp and `duration` to `(timestamp - start_time).total_seconds()`. -/
def updateDowntimeIncidents (incidents : List Incident) (success : Bool)
    (timestamp : ℚ) : List Incident :=
  if success = false then
    match incidents.getLast? with
    | none => incidents ++ [⟨timestamp, none, none⟩]
    | some last =>
      if last.end_time = none then incidents
      else incidents ++ [⟨timestamp, none, none⟩]
  else
    match incidents.getLast? with
    | none => incidents
    | some last =>
      if last.end_time = none then
        incidents.dropLast ++
          [{ last with
              end_time := some timestamp
              duration := some (timestamp - last.start_time) }]
      else incidents

/-- Folding a sequence of status updates `(success, timestamp)` through the
incident tracker, as successive calls of `DataManager.update_url_status` do
via `_update_downtime_incidents`. -/
def runIncidentUpdates (incidents : List Incident)
    (updates : List (Bool × ℚ)) : List Incident :=
  updates.foldl (fun acc u => updateDowntimeIncidents acc u.1 u.2) incidents

/-- An incident is open when its `end_time` is null. -/
def Incident.isOpen (i : Incident) : Bool := i.end_time = none

/-- Number of open incidents in a list. -/
def openCount (incidents : List Incident) : ℕ :=
  (incidents.filter Incident.isOpen).length

/-- The ping-history append with the 1000-record cap of
`DataManager.update_url_status` (src/data_manager.py lines 181-185): append
the new record, then keep only the slice `[-1000:]` when the length exceeds
1000. -/
def updateHistory (history : List PingRecord) (record : PingRecord) :
    List PingRecord :=
  if (history ++ [record]).length > 1000 then
    (history ++ [record]).drop ((history ++ [record]).length - 1000)
  else history ++ [record]

/-- Folding a sequence of ping records through the capped history append. -/
def runHistoryUpdates (history : List PingRecord)
    (records : List PingRecord) : List PingRecord :=
  records.foldl updateHistory history

/-- Round-half-to-even to an integer (Python's `round` tie-breaking). -/
def rndHalfEven (q : ℚ) : ℤ :=
  if q - ⌊q⌋ < 1/2 then ⌊q⌋
  else if q - ⌊q⌋ > 1/2 then ⌊q⌋ + 1
  else if ⌊q⌋ % 2 = 0 then ⌊q⌋ else ⌊q⌋ + 1

/-- Python `round(x, 2)` on rationals. -/
def round2 (q : ℚ) : ℚ := (rndHalfEven (q * 100) : ℚ) / 100

/-- Python `round(x, 3)` on rationals. -/
def round3 (q : ℚ) : ℚ := (rndHalfEven (q * 1000) : ℚ) / 1000

/-- The dictionary returned by `DataManager.get_uptime_stats`
(src/data_manager.py lines 216-253).  The two early returns produce a
dictionary with only three keys, so `failed_pings` and `avg_response_time`
are `Option`s at the key level (`none` = key absent); the present
`avg_response_time` value may itself be Python `None` (`some none`). -/
structure UptimeStats where
  uptime_percentage : ℚ
  total_pings : ℕ
  successful_pings : ℕ
  failed_pings : Option ℕ
  avg_response_time : Option (Option ℚ)
deriving Repr, DecidableEq

/-- The in-window records of `get_uptime_stats`: pings whose parsed
`timestamp` is strictly later than `datetime.now() - timedelta(hours=hours)`
(src/data_manager.py lines 224-228). -/
def recentPings (history : List PingRecord) (now : ℚ) (hours : ℚ) :
    List PingRecord :=
  history.filter (fun p => now - hours * 3600 < p.timestamp)

/-- The successful in-window response times of `get_uptime_stats`
(src/data_manager.py lines 238-241): `ping["success"] and
ping["response_time"] is not None`. -/
def successfulResponseTimes (pings : List PingRecord) : List ℚ :=
  (pings.filter (fun p => p.success = true ∧ p.response_time ≠ none)).filterMap
    (fun p => p.response_time)

/-- `DataManager.get_uptime_stats` (src/data_manager.py lines 216-253),
translated line by line.  A `history` of `none` models a `url` absent from
`ping_history`; that branch and the empty-window branch both return the
three-key dictionary `{"uptime_percentage": 0, "total_pings": 0,
"successful_pings": 0}`.  `avg_response_time` follows the Python truthiness
test `if avg_response_time`: a zero average yields `None`. -/
def get_uptime_stats (history : Option (List PingRecord)) (now : ℚ)
    (hours : ℚ) : UptimeStats :=
  match history with
  | none => ⟨0, 0, 0, none, none⟩
  | some h =>
    let recent := recentPings h now hours
    if recent.isEmpty then ⟨0, 0, 0, none, none⟩
    else
      let total := recent.length
      let successful := (recent.filter (fun p => p.success = true)).length
      let uptime : ℚ := ((successful : ℚ) / (total : ℚ)) * 100
      let srt := successfulResponseTimes recent
      let avg : ℚ := if srt.isEmpty then 0 else srt.sum / (srt.length : ℚ)
      { uptime_percentage := round2 uptime
        total_pings := total
        successful_pings := successful
        failed_pings := some (total - successful)
        avg_response_time := some (if avg = 0 then none else some (round3 avg)) }

/-- `DataManager.get_recent_incidents` (src/data_manager.py lines 255-268)
reads the LEGACY top-level `self.data["downtime_incidents"]` dictionary, not
the per-admin `admin_data` store.  `legacy` is that dictionary's entry for
the url (`none` = key absent). -/
def get_recent_incidents (legacy : Option (List Incident)) (now : ℚ)
    (hours : ℚ) : List Incident :=
  match legacy with
  | none => []
  | some incidents =>
    incidents.filter (fun i => now - hours * 3600 < i.start_time)

/-- The slice of `DataManager.data` that the incident claims need: the
per-admin incident store written by `update_url_status`, and the legacy
top-level `downtime_incidents` dictionary read by `get_recent_incidents`.
Keys map to `none` when absent. -/
structure DMIncidentState where
  adminIncidents : String → String → List Incident
  legacyIncidents : String → Option (List Incident)

/-- The incident effect of `DataManager.update_url_status` for a registered
url (src/data_manager.py line 188): only the owner's per-admin incident list
is updated; the legacy dictionary is untouched. -/
def dmUpdateUrlStatus (s : DMIncidentState) (admin url : String)
    (success : Bool) (timestamp : ℚ) : DMIncidentState :=
  { s with
      adminIncidents := fun a u =>
        if a = admin ∧ u = url then
          updateDowntimeIncidents (s.adminIncidents a u) success timestamp
        else s.adminIncidents a u }

/-- The legacy store after `DataManager._migrate_legacy_data`
(src/data_manager.py lines 60-84): whether or not legacy data was present,
the method leaves `data["downtime_incidents"]` equal to `{}`, so every url
key is absent. -/
def migratedLegacy : String → Option (List Incident) := fun _ => none

/-- The network outcome a probe of `URLMonitor.ping_url` can observe: a
response with some HTTP status, `asyncio.TimeoutError`, or any other raised
exception carrying a message. -/
inductive ProbeOutcome where
  | response (status : ℤ)
  | timeout
  | failure (msg : String)
deriving Repr, DecidableEq

/-- The result dictionary built by `URLMonitor.ping_url`
(src/url_monitor.py lines 29-82).  Every branch sets every key, so no field
is optional except `error`, which is Python `None` on success. -/
structure PingResult where
  url : String
  status_code : ℤ
  response_time : ℚ
  success : Bool
  timestamp : ℚ
  error : Option String
deriving Repr, DecidableEq

/-- `URLMonitor.ping_url` (src/url_monitor.py lines 29-82) as a function of
the observed network outcome and the measured wall-clock elapsed time:
a received response is a success iff `200 <= status < 400`; a timeout yields
the 408 sentinel with error string `"Request timeout"`; any other exception
yields status 0 with the exception's message.  `response_time` is set in
every branch. -/
def ping_url (url : String) (start : ℚ) (outcome : ProbeOutcome)
    (elapsed : ℚ) : PingResult :=
  match outcome with
  | .response s =>
    ⟨url, s, elapsed, decide (200 ≤ s ∧ s < 400), start, none⟩
  | .timeout =>
    ⟨url, 408, elapsed, false, start, some "Request timeout"⟩
  | .failure msg =>
    ⟨url, 0, elapsed, false, start, some msg⟩

/-- The per-url Notion record that `NotionDataManager.update_url_status`
maintains (src/notion_data_manager.py lines 223-254). -/
structure NotionUrlState where
  status : String
  last_check : Option ℚ
  response_time : Option ℚ
deriving Repr, DecidableEq

/-- Processing of one completed probe result for its url inside
`URLMonitor.ping_all_urls` (src/url_monitor.py lines 100-120) /
`ping_user_urls` (lines 141-160): update the owner's Notion record, then —
with no comparison against the previous status — call `_send_alert`
whenever `result["success"]` is false.  `_send_alert` (lines 165-193) sends
one message when a bot instance is set and none otherwise.  Returns the
updated record and the number of alert messages sent to the owner. -/
def processProbeResult (_st : NotionUrlState) (r : PingResult)
    (botSet : Bool) : NotionUrlState × ℕ :=
  ({ status := if r.success then "Online" else "Offline"
     last_check := some r.timestamp
     response_time := some r.response_time },
   if r.success then 0 else if botSet then 1 else 0)

/-- Running successive monitoring cycles for one url: each cycle hands that
url's probe result to `processProbeResult`; the total alert count
accumulates. -/
def runCycles (st : NotionUrlState) (results : List PingResult)
    (botSet : Bool) : NotionUrlState × ℕ :=
  results.foldl
    (fun acc r =>
      let step := processProbeResult acc.1 r botSet
      (step.1, acc.2 + step.2))
    (st, 0)

/-- The instance attributes assigned by `URLMonitor.__init__`
(src/url_monitor.py lines 15-21).  No other method of the class assigns a
new attribute name before `get_uptime_stats` can run except
`set_bot_instance`, which reassigns `bot_instance`. -/
def urlMonitorInitAttrs : List String :=
  ["ping_interval", "request_timeout", "notion_data", "is_running",
   "bot_instance", "_monitoring_task"]

/-- A Python exception surfaced by the embedding. -/
inductive PyError where
  | attributeError (name : String)
deriving Repr, DecidableEq

/-- Python attribute lookup `self.<name>` against the set of assigned
instance attributes: raises `AttributeError` when the name was never
assigned. -/
def getAttr (attrs : List String) (name : String) : Except PyError Unit :=
  if name ∈ attrs then .ok () else .error (.attributeError name)

/-- `URLMonitor.get_uptime_stats` (src/url_monitor.py lines 279-281): its
body is `return self.data_manager.get_uptime_stats(url, admin_chat_id,
hours)`, so evaluation first looks up the `data_manager` attribute and
raises before any statistics are computed if it is absent. -/
def urlMonitor_get_uptime_stats (attrs : List String) :
    Except PyError Unit := do
  let _ ← getAttr attrs "data_manager"
  pure ()

/-- Verification predicate: every incident except possibly the final one is
closed.  This is the inductive strengthening of the at-most-one-open
invariant that `_update_downtime_incidents` maintains. -/
def lastOnlyOpen (incidents : List Incident) : Prop :=
  ∀ i ∈ incidents.dropLast, i.end_time ≠ none

/-! ## Helper lemmas -/

theorem floor_le_rndHalfEven (q : ℚ) : ⌊q⌋ ≤ rndHalfEven q := by
  unfold rndHalfEven
  split_ifs <;> omega

theorem le_rndHalfEven_of_intCast_le (z : ℤ) (q : ℚ) (h : (z : ℚ) ≤ q) :
    z ≤ rndHalfEven q :=
  le_trans (Int.le_floor.mpr h) (floor_le_rndHalfEven q)

theorem rndHalfEven_le_of_le_intCast (z : ℤ) (q : ℚ) (h : q ≤ (z : ℚ)) :
    rndHalfEven q ≤ z := by
  have hf : ⌊q⌋ ≤ z := by
    have := Int.floor_le_floor h
    simpa using this
  unfold rndHalfEven
  split_ifs with h1 h2 h3
  · exact hf
  · have hlt : (⌊q⌋ : ℚ) < q := by linarith
    have : ⌊q⌋ < z := by
      have : (⌊q⌋ : ℚ) < (z : ℚ) := lt_of_lt_of_le hlt h
      exact_mod_cast this
    omega
  · exact hf
  · have hlt : (⌊q⌋ : ℚ) < q := by
      push_neg at h1
      linarith
    have : ⌊q⌋ < z := by
      have : (⌊q⌋ : ℚ) < (z : ℚ) := lt_of_lt_of_le hlt h
      exact_mod_cast this
    omega

/-! ## Claim C10: URLMonitor.get_uptime_stats dereferences a never-assigned
attribute -/

/-- C10: for every call, `URLMonitor.get_uptime_stats` raises
`AttributeError` and returns no statistics, because `URLMonitor.__init__`
never assigns the `data_manager` attribute that the method body
dereferences. -/
theorem C10_get_uptime_stats_attribute_error :
    urlMonitor_get_uptime_stats urlMonitorInitAttrs =
      .error (.attributeError "data_manager") := by
  rfl

/-! ## Claim C7: probe outcome classification -/

/-- C7 counterexample: on timeout the error string produced by
`URLMonitor.ping_url` is `"Request timeout"`, not `"timeout"` as the claim
states. -/
theorem C7_counterexample :
    (ping_url "https://a.test" 0 .timeout 2).status_code = 408 ∧
    (ping_url "https://a.test" 0 .timeout 2).error ≠ some "timeout" := by
  constructor
  · rfl
  · decide

/-- C7 amended: `success` is true iff a response was received with
`200 ≤ status_code < 400`; on timeout the result is status 408, failure,
error `"Request timeout"` (not the bare string `"timeout"`); on any other
transport failure the result is status 0, failure, and the failure message;
`response_time` is set in every case. -/
theorem C7_probe_classification (url : String) (start : ℚ)
    (outcome : ProbeOutcome) (elapsed : ℚ) :
    ((ping_url url start outcome elapsed).success = true ↔
      ∃ s, outcome = .response s ∧ 200 ≤ s ∧ s < 400)
    ∧ (outcome = .timeout →
        (ping_url url start outcome elapsed).status_code = 408 ∧
        (ping_url url start outcome elapsed).success = false ∧
        (ping_url url start outcome elapsed).error = some "Request timeout")
    ∧ (∀ msg, outcome = .failure msg →
        (ping_url url start outcome elapsed).status_code = 0 ∧
        (ping_url url start outcome elapsed).success = false ∧
        (ping_url url start outcome elapsed).error = some msg)
    ∧ (ping_url url start outcome elapsed).response_time = elapsed := by
  cases outcome with
  | response s =>
    refine ⟨?_, by simp, by simp, rfl⟩
    simp only [ping_url, decide_eq_true_eq]
    constructor
    · intro h
      exact ⟨s, rfl, h.1, h.2⟩
    · rintro ⟨s1, hs, h1, h2⟩
      cases hs
      exact ⟨h1, h2⟩
  | timeout =>
    refine ⟨by simp [ping_url], by intro h; exact ⟨rfl, rfl, rfl⟩, by simp, rfl⟩
  | failure m =>
    refine ⟨by simp [ping_url], by simp, ?_, rfl⟩
    intro msg hmsg
    cases hmsg
    exact ⟨rfl, rfl, rfl⟩

/-- C7 witness: the amended classification applied at a concrete timeout and
a concrete transport failure. -/
theorem C7_probe_classification_witness :
    (ping_url "https://a.test" 0 .timeout 2).error = some "Request timeout"
    ∧ (ping_url "https://a.test" 0 (.failure "dns error") 2).error =
        some "dns error" :=
  ⟨((C7_probe_classification "https://a.test" 0 .timeout 2).2.1 rfl).2.2,
   ((C7_probe_classification "https://a.test" 0 (.failure "dns error") 2).2.2.1
      "dns error" rfl).2.2⟩

/-! ## Claim C1: alerting is NOT transition-gated -/

theorem foldl_alert_count (rs : List PingResult) :
    ∀ (s : NotionUrlState) (n : ℕ),
    (rs.foldl (fun acc r =>
        let step := processProbeResult acc.1 r true
        (step.1, acc.2 + step.2)) (s, n)).2
      = n + (rs.filter (fun r => r.success = false)).length := by
  induction rs with
  | nil => intro s n; simp
  | cons r rs ih =>
    intro s n
    rw [List.foldl_cons]
    show (rs.foldl _
      ((processProbeResult s r true).1, n + (processProbeResult s r true).2)).2 = _
    rw [ih]
    cases hr : r.success <;>
      simp [processProbeResult, hr, List.filter_cons] <;> omega

/-- C1 counterexample: with a bot instance set, the probe-result sequence
success, fail, fail, fail for one URL causes three alert messages to its
owner — one per failed probe — not exactly one. -/
theorem C1_counterexample :
    (runCycles ⟨"Unknown", none, none⟩
      [ping_url "https://a.test" 0 (.response 200) 1,
       ping_url "https://a.test" 60 .timeout 30,
       ping_url "https://a.test" 120 .timeout 30,
       ping_url "https://a.test" 180 .timeout 30] true).2 = 3
    ∧ (3 : ℕ) ≠ 1 := by
  constructor
  · rfl
  · decide

/-- C1 amended: `ping_all_urls` / `ping_user_urls` never consult the
previously recorded status: with a bot instance set, an offline alert is
sent to the owner for every failed probe result, so the number of alerts
over any probe-result sequence equals the number of failed probes in it
(three for success-fail-fail-fail, not one). -/
theorem C1_alert_per_failed_probe (st : NotionUrlState)
    (results : List PingResult) :
    (runCycles st results true).2 =
      (results.filter (fun r => r.success = false)).length := by
  simpa [runCycles] using foldl_alert_count results st 0

/-! ## Claim C2: at most one open incident -/

theorem lastOnlyOpen_update (l : List Incident) (s : Bool) (t : ℚ)
    (h : lastOnlyOpen l) : lastOnlyOpen (updateDowntimeIncidents l s t) := by
  cases hl : l.getLast? with
  | none =>
    have hnil : l = [] := List.getLast?_eq_none.mp hl
    subst hnil
    cases s <;> simp [updateDowntimeIncidents, lastOnlyOpen]
  | some a =>
    have hdl : l.dropLast ++ [a] = l := List.dropLast_append_getLast? a hl
    cases s with
    | false =>
      by_cases he : a.end_time = none
      · have heq : updateDowntimeIncidents l false t = l := by
          simp [updateDowntimeIncidents, hl, he]
        rw [heq]; exact h
      · have heq : updateDowntimeIncidents l false t =
            l ++ [⟨t, none, none⟩] := by
          simp [updateDowntimeIncidents, hl, he]
        rw [heq]
        intro i hi
        rw [List.dropLast_concat] at hi
        rw [← hdl] at hi
        rcases List.mem_append.mp hi with h1 | h2
        · exact h i h1
        · have hia : i = a := by simpa using h2
          rw [hia]; exact he
    | true =>
      by_cases he : a.end_time = none
      · have heq : updateDowntimeIncidents l true t =
            l.dropLast ++
              [{ a with
                  end_time := some t
                  duration := some (t - a.start_time) }] := by
          simp [updateDowntimeIncidents, hl, he]
        rw [heq]
        intro i hi
        rw [List.dropLast_concat] at hi
        exact h i hi
      · have heq : updateDowntimeIncidents l true t = l := by
          simp [updateDowntimeIncidents, hl, he]
        rw [heq]; exact h

theorem openCount_le_one_of_lastOnlyOpen (l : List Incident)
    (h : lastOnlyOpen l) : openCount l ≤ 1 := by
  cases hl : l.getLast? with
  | none =>
    have hnil : l = [] := List.getLast?_eq_none.mp hl
    subst hnil
    simp [openCount]
  | some a =>
    have hdl : l.dropLast ++ [a] = l := List.dropLast_append_getLast? a hl
    rw [openCount, ← hdl, List.filter_append]
    have h1 : l.dropLast.filter Incident.isOpen = [] := by
      apply List.filter_eq_nil_iff.mpr
      intro i hi
      simp only [Incident.isOpen, decide_eq_true_eq]
      exact h i hi
    rw [h1]
    cases ha : Incident.isOpen a <;> simp [ha]

theorem lastOnlyOpen_run (updates : List (Bool × ℚ)) :
    ∀ l, lastOnlyOpen l → lastOnlyOpen (runIncidentUpdates l updates) := by
  induction updates with
  | nil => intro l h; simpa [runIncidentUpdates] using h
  | cons u us ih =>
    intro l h
    have heq : runIncidentUpdates l (u :: us) =
        runIncidentUpdates (updateDowntimeIncidents l u.1 u.2) us := by
      simp [runIncidentUpdates]
    rw [heq]
    exact ih _ (lastOnlyOpen_update l u.1 u.2 h)

theorem last_closed_of_openCount_zero (l : List Incident) (a : Incident)
    (h : openCount l = 0) (hl : l.getLast? = some a) : a.end_time ≠ none := by
  intro he
  have hdl : l.dropLast ++ [a] = l := List.dropLast_append_getLast? a hl
  have hmem : a ∈ l := by
    rw [← hdl]
    exact List.mem_append_right _ (List.mem_singleton_self a)
  have hfil : a ∈ l.filter Incident.isOpen :=
    List.mem_filter.mpr ⟨hmem, by simp [Incident.isOpen, he]⟩
  have : 0 < openCount l := by
    rw [openCount]
    exact List.length_pos.mpr (List.ne_nil_of_mem hfil)
  omega

/-- C2: starting from an empty incident list, after every sequence of status
updates at most one incident is open; while an open incident exists a further
failure never opens a second one (the update is the identity), and when no
incident is open a success update leaves every closed incident untouched
(the update is the identity). -/
theorem C2_at_most_one_open_incident (updates : List (Bool × ℚ)) (t : ℚ) :
    openCount (runIncidentUpdates [] updates) ≤ 1
    ∧ ((∃ i ∈ runIncidentUpdates [] updates, i.isOpen = true) →
        updateDowntimeIncidents (runIncidentUpdates [] updates) false t =
          runIncidentUpdates [] updates)
    ∧ (openCount (runIncidentUpdates [] updates) = 0 →
        updateDowntimeIncidents (runIncidentUpdates [] updates) true t =
          runIncidentUpdates [] updates) := by
  have hinv : lastOnlyOpen (runIncidentUpdates [] updates) :=
    lastOnlyOpen_run updates [] (by intro i hi; simp at hi)
  refine ⟨openCount_le_one_of_lastOnlyOpen _ hinv, ?_, ?_⟩
  · rintro ⟨i, hi, hopen⟩
    cases hl : (runIncidentUpdates [] updates).getLast? with
    | none =>
      have hnil := List.getLast?_eq_none.mp hl
      rw [hnil] at hi
      simp at hi
    | some a =>
      have hdl := List.dropLast_append_getLast? a hl
      have hiopen : i.end_time = none := by
        simpa [Incident.isOpen] using hopen
      have ha : a.end_time = none := by
        rw [← hdl] at hi
        rcases List.mem_append.mp hi with h1 | h2
        · exact absurd hiopen (hinv i h1)
        · have : i = a := by simpa using h2
          rw [← this]; exact hiopen
      simp [updateDowntimeIncidents, hl, ha]
  · intro hzero
    cases hl : (runIncidentUpdates [] updates).getLast? with
    | none =>
      have hnil := List.getLast?_eq_none.mp hl
      rw [hnil]
      simp [updateDowntimeIncidents]
    | some a =>
      have ha := last_closed_of_openCount_zero _ a hzero hl
      simp [updateDowntimeIncidents, hl, ha]

/-- C2 witness: the invariant and both identity laws applied at concrete
update sequences. -/
theorem C2_witness :
    openCount (runIncidentUpdates [] [(false, 5)]) ≤ 1
    ∧ updateDowntimeIncidents (runIncidentUpdates [] [(false, 5)]) false 9 =
        runIncidentUpdates [] [(false, 5)]
    ∧ updateDowntimeIncidents (runIncidentUpdates [] [(true, 5)]) true 9 =
        runIncidentUpdates [] [(true, 5)] :=
  ⟨(C2_at_most_one_open_incident [(false, 5)] 9).1,
   (C2_at_most_one_open_incident [(false, 5)] 9).2.1 (by decide),
   (C2_at_most_one_open_incident [(true, 5)] 9).2.2 (by decide)⟩

/-! ## Claim C8: incident open/close round trip -/

/-- C8: from any state with no open incident, a failure at `T0` followed by
a success at `T1` appends exactly one incident, closed with
`end_time = T1` and `duration = T1 - T0` exactly. -/
theorem C8_incident_round_trip (incidents : List Incident) (T0 T1 : ℚ)
    (h : openCount incidents = 0) :
    updateDowntimeIncidents (updateDowntimeIncidents incidents false T0)
        true T1 =
      incidents ++ [⟨T0, some T1, some (T1 - T0)⟩] := by
  have h1 : updateDowntimeIncidents incidents false T0 =
      incidents ++ [⟨T0, none, none⟩] := by
    cases hl : incidents.getLast? with
    | none => simp [updateDowntimeIncidents, hl]
    | some a =>
      have ha := last_closed_of_openCount_zero _ a h hl
      simp [updateDowntimeIncidents, hl, ha]
  rw [h1]
  simp [updateDowntimeIncidents, List.dropLast_concat]

/-- C8 witness: the round trip at `T0 = 1`, `T1 = 5` yields one incident of
duration 4. -/
theorem C8_witness :
    openCount ([] : List Incident) = 0
    ∧ updateDowntimeIncidents (updateDowntimeIncidents [] false 1) true 5 =
        [⟨1, some 5, some 4⟩] := by
  refine ⟨by decide, ?_⟩
  have h := C8_incident_round_trip [] 1 5 (by decide)
  rw [h]
  norm_num

/-! ## Claim C9: bounded ping-history retention -/

theorem drop_cap_append (x rs' : List PingRecord) (hx : 1000 ≤ x.length) :
    ((x.drop (x.length - 1000)) ++ rs').drop
        (((x.drop (x.length - 1000)) ++ rs').length - 1000)
      = (x ++ rs').drop ((x ++ rs').length - 1000) := by
  rw [← List.drop_append_of_le_length (Nat.sub_le _ _)]
  rw [List.drop_drop]
  have hidx : x.length - 1000
        + (((x ++ rs').drop (x.length - 1000)).length - 1000)
      = (x ++ rs').length - 1000 := by
    simp only [List.length_drop, List.length_append]
    omega
  rw [hidx]

theorem runHistoryUpdates_drop (records : List PingRecord) :
    ∀ h : List PingRecord, h.length ≤ 1000 →
    runHistoryUpdates h records =
      (h ++ records).drop ((h ++ records).length - 1000) := by
  induction records with
  | nil =>
    intro h hlen
    simp [runHistoryUpdates, Nat.sub_eq_zero_of_le hlen]
  | cons r rs ih =>
    intro h hlen
    rw [show runHistoryUpdates h (r :: rs) =
        runHistoryUpdates (updateHistory h r) rs from by
      simp [runHistoryUpdates]]
    by_cases hc : (h ++ [r]).length > 1000
    · have hupd : updateHistory h r =
          (h ++ [r]).drop ((h ++ [r]).length - 1000) := by
        unfold updateHistory
        rw [if_pos hc]
      have hlen2 : (updateHistory h r).length ≤ 1000 := by
        rw [hupd, List.length_drop]
        omega
      rw [ih _ hlen2, hupd]
      have hx : 1000 ≤ (h ++ [r]).length := by
        simp only [List.length_append] at hc ⊢
        omega
      rw [drop_cap_append (h ++ [r]) rs hx]
      have hlist : (h ++ [r]) ++ rs = h ++ r :: rs := by simp
      rw [hlist]
    · have hupd : updateHistory h r = h ++ [r] := by
        unfold updateHistory
        rw [if_neg hc]
      have hlen2 : (updateHistory h r).length ≤ 1000 := by
        rw [hupd]
        simp only [List.length_append, List.length_singleton]
        simp only [List.length_append, List.length_singleton, gt_iff_lt,
          not_lt] at hc
        omega
      rw [ih _ hlen2, hupd]
      have hlist : (h ++ [r]) ++ rs = h ++ r :: rs := by simp
      rw [hlist]

/-- C9: starting from an empty per-URL history, any sequence of recorded
ping records leaves exactly the `min n 1000` most recent records: every
probe appends its record and the retained history is always the
length-1000 suffix of the full append-ordered record sequence, so the
oldest records are evicted first and more than 1000 recorded pings leave
exactly the 1000 most recent. -/
theorem C9_history_cap (records : List PingRecord) :
    runHistoryUpdates [] records = records.drop (records.length - 1000)
    ∧ (runHistoryUpdates [] records).length = min records.length 1000 := by
  have h := runHistoryUpdates_drop records [] (by simp)
  simp only [List.nil_append] at h
  refine ⟨h, ?_⟩
  rw [h, List.length_drop]
  omega

/-! ## Shape lemmas for get_uptime_stats -/

theorem get_uptime_stats_none (now hours : ℚ) :
    get_uptime_stats none now hours = ⟨0, 0, 0, none, none⟩ := rfl

theorem get_uptime_stats_empty (h : List PingRecord) (now hours : ℚ)
    (he : recentPings h now hours = []) :
    get_uptime_stats (some h) now hours = ⟨0, 0, 0, none, none⟩ := by
  simp only [get_uptime_stats]
  rw [if_pos (by rw [he]; rfl)]

theorem get_uptime_stats_ne_nil (h : List PingRecord) (now hours : ℚ)
    (hne : recentPings h now hours ≠ []) :
    get_uptime_stats (some h) now hours =
      { uptime_percentage := round2
          ((((recentPings h now hours).filter
                (fun p => p.success = true)).length : ℚ)
            / ((recentPings h now hours).length : ℚ) * 100)
        total_pings := (recentPings h now hours).length
        successful_pings :=
          ((recentPings h now hours).filter (fun p => p.success = true)).length
        failed_pings := some ((recentPings h now hours).length -
          ((recentPings h now hours).filter
            (fun p => p.success = true)).length)
        avg_response_time := some
          (if (if (successfulResponseTimes (recentPings h now hours)).isEmpty
                then (0 : ℚ)
                else (successfulResponseTimes (recentPings h now hours)).sum /
                  ((successfulResponseTimes
                    (recentPings h now hours)).length : ℚ)) = 0
            then none
            else some (round3
              (if (successfulResponseTimes (recentPings h now hours)).isEmpty
                then (0 : ℚ)
                else (successfulResponseTimes (recentPings h now hours)).sum /
                  ((successfulResponseTimes
                    (recentPings h now hours)).length : ℚ)))) } := by
  simp only [get_uptime_stats]
  rw [if_neg (by simp [List.isEmpty_iff, hne])]

/-! ## Rounding bounds -/

theorem round2_nonneg (q : ℚ) (h : 0 ≤ q) : 0 ≤ round2 q := by
  have h1 : (0 : ℤ) ≤ rndHalfEven (q * 100) :=
    le_rndHalfEven_of_intCast_le 0 (q * 100) (by push_cast; linarith)
  rw [round2]
  have h2 : (0 : ℚ) ≤ (rndHalfEven (q * 100) : ℚ) := by exact_mod_cast h1
  linarith [div_nonneg h2 (by norm_num : (0 : ℚ) ≤ 100)]

theorem round2_le_100 (q : ℚ) (h : q ≤ 100) : round2 q ≤ 100 := by
  have h1 : rndHalfEven (q * 100) ≤ 10000 :=
    rndHalfEven_le_of_le_intCast 10000 (q * 100) (by push_cast; linarith)
  rw [round2, div_le_iff (by norm_num : (0 : ℚ) < 100)]
  have h2 : (rndHalfEven (q * 100) : ℚ) ≤ 10000 := by exact_mod_cast h1
  linarith

theorem round2_zero : round2 0 = 0 := by
  norm_num [round2, rndHalfEven]

theorem round2_ne_zero_of_ge (q : ℚ) (h : 1/10 ≤ q) : round2 q ≠ 0 := by
  have h1 : (10 : ℤ) ≤ rndHalfEven (q * 100) :=
    le_rndHalfEven_of_intCast_le 10 (q * 100) (by push_cast; linarith)
  rw [round2]
  intro hz
  rw [div_eq_zero_iff] at hz
  rcases hz with hz | hz
  · have h2 : (10 : ℚ) ≤ (rndHalfEven (q * 100) : ℚ) := by exact_mod_cast h1
    rw [hz] at h2
    linarith
  · norm_num at hz

/-! ## Claim C6: stats record fields -/

/-- C6 counterexample: with no in-window ping record, the returned
dictionary has only three keys — `failed_pings` and `avg_response_time`
are absent, so the claim that all five fields are always returned fails. -/
theorem C6_counterexample :
    (get_uptime_stats (some []) 0 24).failed_pings = none
    ∧ (get_uptime_stats (some []) 0 24).avg_response_time = none :=
  ⟨rfl, rfl⟩

/-- C6 amended: when at least one in-window ping record exists the returned
record carries all five fields and `total_pings = successful_pings +
failed_pings`; when the url is unknown or no record is in-window, the early
return carries only the three fields `uptime_percentage = 0`,
`total_pings = 0`, `successful_pings = 0`. -/
theorem C6_stats_fields (history : Option (List PingRecord)) (now hours : ℚ) :
    (∀ h, history = some h → recentPings h now hours ≠ [] →
      ∃ fp avg,
        (get_uptime_stats history now hours).failed_pings = some fp
        ∧ (get_uptime_stats history now hours).avg_response_time = some avg
        ∧ (get_uptime_stats history now hours).total_pings =
            (get_uptime_stats history now hours).successful_pings + fp)
    ∧ (history = none →
        get_uptime_stats history now hours = ⟨0, 0, 0, none, none⟩)
    ∧ (∀ h, history = some h → recentPings h now hours = [] →
        get_uptime_stats history now hours = ⟨0, 0, 0, none, none⟩) := by
  refine ⟨?_, ?_, ?_⟩
  · intro h hh hne
    subst hh
    rw [get_uptime_stats_ne_nil h now hours hne]
    refine ⟨_, _, rfl, rfl, ?_⟩
    have hle := List.length_filter_le
      (fun p => p.success = true) (recentPings h now hours)
    show (recentPings h now hours).length =
      ((recentPings h now hours).filter (fun p => p.success = true)).length +
        ((recentPings h now hours).length -
          ((recentPings h now hours).filter
            (fun p => p.success = true)).length)
    omega
  · intro hh
    subst hh
    rfl
  · intro h hh he
    subst hh
    exact get_uptime_stats_empty h now hours he

/-- C6 witness: the amended field law applied at a one-record in-window
history and at an unknown url. -/
theorem C6_witness :
    (∃ fp avg,
      (get_uptime_stats (some [⟨0, 200, some 1, true⟩]) 1 24).failed_pings =
          some fp
      ∧ (get_uptime_stats
          (some [⟨0, 200, some 1, true⟩]) 1 24).avg_response_time = some avg
      ∧ (get_uptime_stats (some [⟨0, 200, some 1, true⟩]) 1 24).total_pings =
          (get_uptime_stats
            (some [⟨0, 200, some 1, true⟩]) 1 24).successful_pings + fp)
    ∧ get_uptime_stats none 0 24 = ⟨0, 0, 0, none, none⟩ :=
  ⟨(C6_stats_fields (some [⟨0, 200, some 1, true⟩]) 1 24).1 _ rfl
      (by norm_num [recentPings, List.filter_cons]),
   (C6_stats_fields none 0 24).2.1 rfl⟩

/-! ## Claim C3: uptime percentage -/

/-- C3 counterexample: a window holding exactly one failed ping yields
`uptime_percentage = 0` with `total_pings = 1`, so uptime 0 does not imply
`total_pings = 0` as the claim states. -/
theorem C3_counterexample :
    (get_uptime_stats
        (some [⟨0, 500, some 1, false⟩]) 1 24).uptime_percentage = 0
    ∧ (get_uptime_stats
        (some [⟨0, 500, some 1, false⟩]) 1 24).total_pings ≠ 0 := by
  have hrec : recentPings [⟨0, 500, some 1, false⟩] 1 24 =
      [⟨0, 500, some 1, false⟩] := by
    norm_num [recentPings, List.filter_cons]
  have hne : recentPings [⟨0, 500, some 1, false⟩] 1 24 ≠ [] := by
    rw [hrec]
    simp
  rw [get_uptime_stats_ne_nil _ 1 24 hne, hrec]
  constructor
  · dsimp only
    norm_num [List.filter_cons, round2_zero]
  · dsimp only
    norm_num

/-- C3 amended: the uptime percentage is `round2 (successful/total * 100)`
on a non-empty window, 0 when `total_pings = 0`, always within `[0, 100]`,
and — for any history within the 1000-record retention cap — equals 0
exactly when `successful_pings = 0` (not exactly when `total_pings = 0`:
an all-failure window also yields 0). -/
theorem C3_uptime_percentage (history : Option (List PingRecord))
    (now hours : ℚ) (hcap : (history.getD []).length ≤ 1000) :
    0 ≤ (get_uptime_stats history now hours).uptime_percentage
    ∧ (get_uptime_stats history now hours).uptime_percentage ≤ 100
    ∧ ((get_uptime_stats history now hours).total_pings = 0 →
        (get_uptime_stats history now hours).uptime_percentage = 0)
    ∧ ((get_uptime_stats history now hours).uptime_percentage = 0 ↔
        (get_uptime_stats history now hours).successful_pings = 0)
    ∧ (∀ h, history = some h → recentPings h now hours ≠ [] →
        (get_uptime_stats history now hours).uptime_percentage =
          round2 ((((recentPings h now hours).filter
                (fun p => p.success = true)).length : ℚ)
              / ((recentPings h now hours).length : ℚ) * 100)) := by
  cases history with
  | none =>
    refine ⟨le_refl 0, by norm_num [get_uptime_stats], fun _ => rfl,
      by simp [get_uptime_stats], ?_⟩
    intro h hh
    exact absurd hh (by simp)
  | some h =>
    by_cases he : recentPings h now hours = []
    · rw [get_uptime_stats_empty h now hours he]
      refine ⟨le_refl 0, by norm_num, fun _ => rfl, by simp, ?_⟩
      intro h1 hh hne
      injection hh with hh1
      subst hh1
      exact absurd he hne
    · rw [get_uptime_stats_ne_nil h now hours he]
      dsimp only
      set recent := recentPings h now hours with hrec
      set succ := (recent.filter (fun p => p.success = true)).length with hsucc
      set tot := recent.length with htot0
      have htot : 0 < tot := by
        rw [htot0]
        exact List.length_pos.mpr he
      have hsle : succ ≤ tot := by
        rw [hsucc, htot0]
        exact List.length_filter_le _ _
      have htot1000 : tot ≤ 1000 := by
        rw [htot0, hrec]
        calc (recentPings h now hours).length
            ≤ h.length := List.length_filter_le _ _
          _ ≤ 1000 := by simpa using hcap
      have htq : (0 : ℚ) < (tot : ℚ) := by exact_mod_cast htot
      have hq0 : (0 : ℚ) ≤ (succ : ℚ) / (tot : ℚ) * 100 := by positivity
      have hq100 : (succ : ℚ) / (tot : ℚ) * 100 ≤ 100 := by
        have h1 : (succ : ℚ) / (tot : ℚ) ≤ 1 := by
          rw [div_le_one htq]
          exact_mod_cast hsle
        linarith
      refine ⟨round2_nonneg _ hq0, round2_le_100 _ hq100, ?_, ?_, ?_⟩
      · intro htz
        omega
      · constructor
        · intro hup
          by_contra hs
          have hs1 : 1 ≤ succ := Nat.pos_of_ne_zero hs
          have hge : (1 : ℚ) / 10 ≤ (succ : ℚ) / (tot : ℚ) * 100 := by
            have h1 : (1 : ℚ) ≤ (succ : ℚ) := by exact_mod_cast hs1
            have h2 : (tot : ℚ) ≤ 1000 := by exact_mod_cast htot1000
            rw [div_mul_eq_mul_div, le_div_iff htq]
            linarith
          exact absurd hup (round2_ne_zero_of_ge _ hge)
        · intro hs
          rw [hs]
          simp [round2_zero]
      · intro h1 hh hne1
        injection hh with hh1
        subst hh1
        rfl

/-- C3 witness: the amended uptime law applied at a one-record history. -/
theorem C3_witness :
    ((some [⟨0, 200, some 1, true⟩] : Option (List PingRecord)).getD
        []).length ≤ 1000
    ∧ ((get_uptime_stats
          (some [⟨0, 200, some 1, true⟩]) 1 24).uptime_percentage = 0 ↔
        (get_uptime_stats
          (some [⟨0, 200, some 1, true⟩]) 1 24).successful_pings = 0) :=
  ⟨by norm_num,
   (C3_uptime_percentage (some [⟨0, 200, some 1, true⟩]) 1 24
      (by norm_num)).2.2.2.1⟩

/-! ## Claim C5: average response time -/

theorem avg_field_eq (srt : List ℚ) :
    (if (if srt.isEmpty then (0 : ℚ)
          else srt.sum / (srt.length : ℚ)) = 0
      then none
      else some (round3 (if srt.isEmpty then (0 : ℚ)
        else srt.sum / (srt.length : ℚ))))
      = (if srt = [] ∨ srt.sum / (srt.length : ℚ) = 0 then none
          else some (round3 (srt.sum / (srt.length : ℚ)))) := by
  by_cases hse : srt = []
  · simp [hse]
  · have hie : srt.isEmpty = false := by simp [hse]
    by_cases hm : srt.sum / (srt.length : ℚ) = 0
    · simp [hie, hm, hse]
    · simp [hie, hm, hse]

/-- C5 counterexample: a window holding exactly one successful ping whose
recorded `response_time` is 0 yields `avg_response_time = null` even though
a successful in-window record exists — the Python truthiness test
`if avg_response_time` conflates a zero mean with no data. -/
theorem C5_counterexample :
    (get_uptime_stats
        (some [⟨0, 200, some 0, true⟩]) 1 24).avg_response_time = some none
    ∧ (get_uptime_stats
        (some [⟨0, 200, some 0, true⟩]) 1 24).successful_pings = 1 := by
  have hrec : recentPings [⟨0, 200, some 0, true⟩] 1 24 =
      [⟨0, 200, some 0, true⟩] := by
    norm_num [recentPings, List.filter_cons]
  have hne : recentPings [⟨0, 200, some 0, true⟩] 1 24 ≠ [] := by
    rw [hrec]
    simp
  rw [get_uptime_stats_ne_nil _ 1 24 hne, hrec]
  constructor
  · dsimp only
    norm_num [successfulResponseTimes, List.filter_cons, List.filterMap]
  · dsimp only
    norm_num [List.filter_cons]

/-- C5 amended: on a non-empty window, `avg_response_time` is the 3-decimal
rounding of the arithmetic mean of `response_time` over the successful
in-window records carrying a non-null timing, and it is null exactly when
no such record exists or that mean equals 0 (Python truthiness); failed
probes are excluded from the mean yet still counted in `total_pings`, which
equals the full in-window record count. -/
theorem C5_avg_over_successful (h : List PingRecord) (now hours : ℚ)
    (hne : recentPings h now hours ≠ []) :
    (get_uptime_stats (some h) now hours).avg_response_time =
      some (if successfulResponseTimes (recentPings h now hours) = []
            ∨ (successfulResponseTimes (recentPings h now hours)).sum /
                ((successfulResponseTimes
                  (recentPings h now hours)).length : ℚ) = 0
        then none
        else some (round3
          ((successfulResponseTimes (recentPings h now hours)).sum /
            ((successfulResponseTimes (recentPings h now hours)).length : ℚ))))
    ∧ (get_uptime_stats (some h) now hours).total_pings =
        (recentPings h now hours).length := by
  rw [get_uptime_stats_ne_nil h now hours hne]
  exact ⟨congrArg some (avg_field_eq _), rfl⟩

/-- C5 witness: the amended law at a window holding one successful ping
with timing 2 and one failed ping with timing 7. -/
theorem C5_witness :
    recentPings [⟨0, 200, some 2, true⟩, ⟨0, 500, some 7, false⟩] 1 24 ≠ []
    ∧ ((get_uptime_stats (some [⟨0, 200, some 2, true⟩,
          ⟨0, 500, some 7, false⟩]) 1 24).avg_response_time =
        some (if successfulResponseTimes (recentPings
                [⟨0, 200, some 2, true⟩, ⟨0, 500, some 7, false⟩] 1 24) = []
            ∨ (successfulResponseTimes (recentPings
                [⟨0, 200, some 2, true⟩, ⟨0, 500, some 7, false⟩] 1 24)).sum /
                ((successfulResponseTimes (recentPings
                  [⟨0, 200, some 2, true⟩,
                    ⟨0, 500, some 7, false⟩] 1 24)).length : ℚ) = 0
          then none
          else some (round3 ((successfulResponseTimes (recentPings
              [⟨0, 200, some 2, true⟩, ⟨0, 500, some 7, false⟩] 1 24)).sum /
            ((successfulResponseTimes (recentPings
              [⟨0, 200, some 2, true⟩,
                ⟨0, 500, some 7, false⟩] 1 24)).length : ℚ))))
      ∧ (get_uptime_stats (some [⟨0, 200, some 2, true⟩,
            ⟨0, 500, some 7, false⟩]) 1 24).total_pings =
          (recentPings [⟨0, 200, some 2, true⟩,
            ⟨0, 500, some 7, false⟩] 1 24).length) :=
  by
  have hne2 : recentPings
      [⟨0, 200, some 2, true⟩, ⟨0, 500, some 7, false⟩] 1 24 ≠ [] := by
    rw [show recentPings
          [⟨0, 200, some 2, true⟩, ⟨0, 500, some 7, false⟩] 1 24
        = [⟨0, 200, some 2, true⟩, ⟨0, 500, some 7, false⟩] from by
      norm_num [recentPings, List.filter_cons]]
    exact List.cons_ne_nil _ _
  exact ⟨hne2, C5_avg_over_successful
    [⟨0, 200, some 2, true⟩, ⟨0, 500, some 7, false⟩] 1 24 hne2⟩

/-! ## Claim C4: get_recent_incidents reads the wrong store -/

/-- C4: the query can never see recorded incidents.  After migration the
legacy top-level `downtime_incidents` dictionary is empty, and
`update_url_status` records incidents only in the per-admin store, so after
a failed probe at `t = 10` the admin store holds an incident whose
`start_time` lies inside the 24-hour window ending at `now = 20`, yet
`get_recent_incidents` returns the empty list. -/
theorem C4_recorded_incident_invisible :
    get_recent_incidents
        ((dmUpdateUrlStatus ⟨fun _ _ => [], migratedLegacy⟩ "1691680798"
            "https://a.test" false 10).legacyIncidents "https://a.test") 20 24
      = []
    ∧ (dmUpdateUrlStatus ⟨fun _ _ => [], migratedLegacy⟩ "1691680798"
          "https://a.test" false 10).adminIncidents
        "1691680798" "https://a.test"
      = [⟨10, none, none⟩]
    ∧ (20 : ℚ) - 24 * 3600 < 10 := by
  refine ⟨rfl, ?_, by norm_num⟩
  show (if ("1691680798" = "1691680798" ∧ "https://a.test" = "https://a.test")
      then updateDowntimeIncidents [] false 10
      else []) = [⟨10, none, none⟩]
  rw [if_pos ⟨rfl, rfl⟩]
  rfl
